import Mathlib

/-!
Verification of the FIT3179 data-preparation scripts.

The repository holds three independent CSV transforms:
  * `Project 2/split_deforestation_by_year.py` (Year-Splitter),
  * `removeYearsB41990.py` (Year-Filter),
  * `addRegion.py` (Region-Enricher).

Each is embedded shallowly below.  Files are modelled at the level of their
parsed content: a header (list of column names) together with data rows.
The embeddings start from the point where Python's `csv` module has yielded
the parsed rows; the delimiter-sniffing step of `addRegion.py` is therefore
modelled as the identity on an already-parsed table (the comma-delimited
case, which is the one every concrete theorem below uses).

Python string primitives (`strip`, `lower`, `upper`, `replace`, `startswith`,
`in`, `int(...)`) are re-implemented structurally over `String.data` so that
every definition evaluates by kernel reduction; they cover the ASCII
fragment the repository's data uses.
-/

/-! ### Python string primitives -/

/-- `listPref n h`: `n` is a leading segment of `h` (over characters). -/
def listPref : List Char → List Char → Bool
  | [], _ => true
  | _ :: _, [] => false
  | a :: as, b :: bs => a == b && listPref as bs

/-- `listInf n h`: `n` occurs contiguously inside `h`. -/
def listInf (n : List Char) : List Char → Bool
  | [] => listPref n []
  | c :: hs => listPref n (c :: hs) || listInf n hs

/-- Python's substring test `n in h`. -/
def pyIn (n h : String) : Bool :=
  listInf n.data h.data

/-- Python's `s.startswith(pre)`. -/
def pyStartsWith (s pre : String) : Bool :=
  listPref pre.data s.data

/-- Python's `s.strip()` (ASCII whitespace). -/
def pyStrip (s : String) : String :=
  String.mk (((s.data.dropWhile Char.isWhitespace).reverse.dropWhile
    Char.isWhitespace).reverse)

/-- Python's `s.lower()` (ASCII letters). -/
def pyLower (s : String) : String :=
  String.mk (s.data.map Char.toLower)

/-- Python's `s.upper()` (ASCII letters). -/
def pyUpper (s : String) : String :=
  String.mk (s.data.map Char.toUpper)

/-- Fuel-driven core of Python's `s.replace(needle, rep)`: non-overlapping,
left to right.  Each step consumes at least one character, so fuel equal to
the text's length suffices. -/
def replaceGo (needle rep : List Char) : Nat → List Char → List Char
  | _, [] => []
  | 0, hs => hs
  | fuel + 1, c :: hs =>
    if !needle.isEmpty && listPref needle (c :: hs) then
      rep ++ replaceGo needle rep fuel (List.drop (needle.length - 1) hs)
    else c :: replaceGo needle rep fuel hs

/-- Python's `s.replace(needle, rep)` for a non-empty needle. -/
def pyReplace (s needle rep : String) : String :=
  String.mk (replaceGo needle.data rep.data s.data.length s.data)

/-- Tail of a Python integer literal: digits, with single underscores allowed
between digits (`int("1_0") = 10`, while `int("1_")` and `int("1__0")`
raise). -/
def pyDigitsTail : List Char → Bool
  | [] => true
  | c :: cs =>
    if c == '_' then
      match cs with
      | [] => false
      | d :: ds => d.isDigit && pyDigitsTail ds
    else c.isDigit && pyDigitsTail cs

/-- Numeric value of a digit string (underscores already removed). -/
def digitsVal (ds : List Char) : Int :=
  ds.foldl (fun acc c => 10 * acc + (c.toNat - 48 : Int)) 0

/-- Python's `int(s)` on a string: strip whitespace, optional sign, ASCII
digits with interior underscores; `none` models the `ValueError` raised on
any other shape. -/
def pyParseInt (s : String) : Option Int :=
  let cs := (pyStrip s).data
  let p : Int × List Char :=
    match cs with
    | '+' :: rest => (1, rest)
    | '-' :: rest => (-1, rest)
    | _ => (1, cs)
  match p.2 with
  | [] => none
  | d :: rest =>
    if d.isDigit && pyDigitsTail rest then
      some (p.1 * digitsVal ((d :: rest).filter (fun c => c != '_')))
    else none

/-! ### Python dictionaries

A `dict` is modelled as an association list with unique keys: inserting an
existing key updates its value in place (keeping its iteration position,
as CPython does), inserting a fresh key appends. -/

def dictInsert (d : List (String × String)) (k v : String) : List (String × String) :=
  if d.any (fun kv => kv.1 == k) then
    d.map (fun kv => if kv.1 == k then (k, v) else kv)
  else d ++ [(k, v)]

def dictGet? (d : List (String × String)) (k : String) : Option String :=
  (d.find? (fun kv => kv.1 == k)).map (fun kv => kv.2)

/-! ### Year-Filter (`removeYearsB41990.py`)

The script reads a CSV, writes the header, locates the `"Year"` column in
the header, then copies each row whose `Year` cell parses as an integer
`>= 1990`; a `ValueError` from `int` skips the row, while a missing cell
(`IndexError`) is uncaught and stops the loop.  The threshold appears as a
parameter `t`; the script instantiates `t = 1990`. -/

/-- The row-copying loop of the filter script. -/
def filterLoop (t : Int) (idx : Nat) : List (List String) → List (List String)
  | [] => []
  | r :: rs =>
    match r.get? idx with
    | none => []
    | some s =>
      match pyParseInt s with
      | none => filterLoop t idx rs
      | some y => if t ≤ y then r :: filterLoop t idx rs else filterLoop t idx rs

/-- Content of a parsed CSV file: header row followed by data rows. -/
abbrev CsvFile := List (List String)

/-- Output content produced by the filter script from a parsed input file:
the header is written first; if the header has no `"Year"` entry the
script raises after that write, leaving just the header. -/
def runYearFilter (t : Int) (input : CsvFile) : CsvFile :=
  match input with
  | [] => []
  | header :: rows =>
    match header.indexOf? "Year" with
    | none => [header]
    | some idx => header :: filterLoop t idx rows

/-- A file system: path to parsed content (`none`: file absent). -/
abbrev FS := String → Option CsvFile

def filterInPath : String := "FIT3179/data/forest-area-as-share-of-land-area.csv"

def filterOutPath : String := "FIT3179/data/forest_area_from_1990.csv"

/-- One invocation of `removeYearsB41990.py` as a file-system transformer:
if the input cannot be opened nothing is written; otherwise the output path
is overwritten with the filtered content (threshold 1990). -/
def runFilterScript (fs : FS) : FS :=
  match fs filterInPath with
  | none => fs
  | some content =>
    fun p => if p = filterOutPath then some (runYearFilter 1990 content) else fs p

/-! ### Year-Splitter (`Project 2/split_deforestation_by_year.py`)

Rows come from `csv.DictReader`, modelled as association lists from column
name to cell string.  For each row the script evaluates `int(row['Year'])`
with no exception handling, so an unparseable (or absent) `Year` aborts
the run; rows whose parsed year lies in the configured list are appended to
that year's file. -/

/-- A `csv.DictReader` row. -/
abbrev DictRow := List (String × String)

def getCellS (r : DictRow) (k : String) : Option String :=
  (r.find? (fun kv => kv.1 == k)).map (fun kv => kv.2)

/-- `int(row['Year'])`: `none` models the uncaught exception. -/
def rowYearInt (r : DictRow) : Option Int :=
  match getCellS r "Year" with
  | none => none
  | some s => pyParseInt s

/-- The splitter's row loop.  Returns the `(year, row)` pairs written, in
order, paired with `true` when the loop aborted on a bad `Year` value
(everything from the bad row on is unprocessed). -/
def splitRun (years : List Int) : List DictRow → List (Int × DictRow) × Bool
  | [] => ([], false)
  | r :: rs =>
    match rowYearInt r with
    | none => ([], true)
    | some y =>
      let rest := splitRun years rs
      if years.contains y then ((y, r) :: rest.1, rest.2) else rest

/-- Content of the output file for target year `y`: the header
(`reader.fieldnames`) is written when the writers are set up, before any
data row is read; data rows follow in written order. -/
def splitFileFor (years : List Int) (fieldnames : List String) (rows : List DictRow)
    (y : Int) : List String × List DictRow :=
  (fieldnames, ((splitRun years rows).1.filter (fun p => p.1 == y)).map (fun p => p.2))

/-! ### Region-Enricher (`addRegion.py`)

`pandas` cells are modelled as `Option String`: `none` is a `NaN` cell.
The reference table arrives as a parsed header plus data rows. -/

/-- A `pandas` data-frame row: column name to cell (`none` = `NaN`). -/
abbrev PdRow := List (String × Option String)

def getCell (r : PdRow) (k : String) : Option String :=
  match (r.find? (fun kv => kv.1 == k)).map (fun kv => kv.2) with
  | none => none
  | some v => v

/-- The seven simple continental categories of the script's docstring. -/
def canonicalContinents : List String :=
  ["Africa", "Asia", "Europe", "North America", "South America", "Oceania", "Antarctica"]

/-- First header-detection pass of `build_iso3_to_continent_map` for the
ISO3 column (keyword match; the Python loop keeps the last hit). -/
def iso3HeaderCond (h : String) : Bool :=
  let hh := pyLower (pyStrip h)
  pyIn "three" hh &&
    (pyIn "alpha" hh || pyIn "letter" hh || pyIn "three_letter" hh ||
      pyIn "three-letter" hh || pyIn "iso3" hh || pyIn "three_letter_country_code" hh)

/-- First header-detection pass for the continent column. -/
def contHeaderCond (h : String) : Bool :=
  let hh := pyLower (pyStrip h)
  pyIn "continent" hh && (pyIn "name" hh || pyIn "continent_name" hh)

/-- Second pass for the ISO3 column: exact known labels. -/
def iso3LabelCond (h : String) : Bool :=
  ["THREE_LETTER_COUNTRY_CODE", "THREE_LETTER_CODE", "THREE_LETTER", "ISO_A3",
    "CODE3", "A3", "THREE_LETTER"].contains (pyUpper (pyStrip h))

/-- Second pass for the continent column: exact known labels. -/
def contLabelCond (h : String) : Bool :=
  ["CONTINENT_NAME", "CONTINENT", "CONTINENT_CODE"].contains (pyUpper (pyStrip h))

/-- A Python `for i, h in enumerate(..): if cond(h): idx = i` loop with no
break: the last matching index wins. -/
def lastIdxWhere (cond : String → Bool) (xs : List String) : Option Nat :=
  xs.enum.foldl (fun acc p => if cond p.2 then some p.1 else acc) none

/-- A loop guarded by `idx is None` at each iteration: first match wins. -/
def firstIdxWhere (cond : String → Bool) (xs : List String) : Option Nat :=
  (xs.enum.find? (fun p => cond p.2)).map (fun p => p.1)

/-- Shape test of the third heuristic: a cell of exactly 3 alphabetic
characters after stripping. -/
def looksIso3 (v : String) : Bool :=
  (pyStrip v).data.length == 3 && (pyStrip v).data.all Char.isAlpha

/-- Shape test of the third heuristic: a cell equal to a continent name
(the trailing-space variants are in the Python tuple verbatim). -/
def looksContinent (v : String) : Bool :=
  ["asia", "europe", "africa", "north america", "south america", "oceania", "antarctica",
    "asia ", "europe ", "africa ", "north america ", "south america ", "oceania ",
    "antarctica "].contains (pyLower (pyStrip v))

/-- Two-letter continent code expansion table of the build function. -/
def contCodeMap : List (String × String) :=
  [("AS", "Asia"), ("EU", "Europe"), ("AF", "Africa"), ("NA", "North America"),
    ("SA", "South America"), ("OC", "Oceania"), ("AN", "Antarctica")]

/-- Continent normalisation inside `build_iso3_to_continent_map`: replace
every `"Americas"` occurrence by `"North America"`, strip, then expand a
two-letter continent code. -/
def normalizeCont (cont : String) : String :=
  let n := pyStrip (pyReplace cont "Americas" "North America")
  if n.data.length == 2 &&
      ["AS", "EU", "AF", "NA", "SA", "OC", "AN"].contains (pyUpper n) then
    (dictGet? contCodeMap (pyUpper n)).getD n
  else n

/-- Map-building loop of `build_iso3_to_continent_map` over the reference
data rows, given the detected column indices (later rows overwrite
earlier ones for a repeated code). -/
def buildMapRows (ii ci : Nat) (rows : List (List String)) : List (String × String) :=
  rows.foldl
    (fun d row =>
      if row.length ≤ max ii ci then d
      else
        let iso3 := pyStrip (row.getD ii "")
        let cont := pyStrip (row.getD ci "")
        if iso3 == "" then d
        else dictInsert d (pyUpper iso3) (normalizeCont cont))
    []

/-- `build_iso3_to_continent_map` on a parsed reference table: the three
escalating column-detection heuristics, then the map build; `none` models
the fatal `RuntimeError` when a column stays undetermined. -/
def build_iso3_to_continent_map (header : List String) (rows : List (List String)) :
    Option (List (String × String)) :=
  let i1 := lastIdxWhere iso3HeaderCond header
  let c1 := lastIdxWhere contHeaderCond header
  let i2 := match i1 with
    | none => lastIdxWhere iso3LabelCond header
    | some k => some k
  let c2 := match c1 with
    | none => lastIdxWhere contLabelCond header
    | some k => some k
  let p : Option Nat × Option Nat :=
    if i2.isNone || c2.isNone then
      match rows.head? with
      | none => (i2, c2)
      | some fd =>
        ((if i2.isNone then firstIdxWhere looksIso3 fd else i2),
          (if c2.isNone then firstIdxWhere looksContinent fd else c2))
    else (i2, c2)
  match p.1, p.2 with
  | some ii, some ci => some (buildMapRows ii ci rows)
  | _, _ => none

/-- The `cont_map` literal inside `lookup_continent`. -/
def cont_map : List (String × String) :=
  [("Asia", "Asia"), ("Europe", "Europe"), ("Africa", "Africa"),
    ("North America", "North America"), ("South America", "South America"),
    ("Oceania", "Oceania"), ("Antarctica", "Antarctica"),
    ("Americas", "North America")]

/-- `cont_map.get(continent, continent)`. -/
def contMapGet (c : String) : String :=
  (dictGet? cont_map c).getD c

/-- `lookup_continent`: `NaN` and effectively-empty codes give `""`; a hit
in the code map is passed through `cont_map`; a miss gives `""`. -/
def lookup_continent (iso3_to_cont : List (String × String)) (code : Option String) :
    String :=
  match code with
  | none => ""
  | some code =>
    let c := pyUpper (pyStrip code)
    if c == "" then ""
    else
      match dictGet? iso3_to_cont c with
      | none => ""
      | some continent => if continent == "" then "" else contMapGet continent

/-- Construction of `name_to_cont` for the name-based fallback: the country
name column is the first header containing `"country"` and `"name"`, the
continent column the first containing `"continent"`; if either is missing
the map stays empty. -/
def buildNameMap (header : List String) (rows : List (List String)) :
    List (String × String) :=
  let ni := (header.enum.find? (fun p =>
    pyIn "country" (pyLower p.2) && pyIn "name" (pyLower p.2))).map (fun p => p.1)
  let ci := (header.enum.find? (fun p => pyIn "continent" (pyLower p.2))).map
    (fun p => p.1)
  match ni, ci with
  | some ni, some ci =>
    rows.foldl
      (fun d row =>
        if row.length > max ni ci then
          let nm := pyLower (pyStrip (row.getD ni ""))
          let cont := pyStrip (row.getD ci "")
          if nm == "" then d else dictInsert d nm cont
        else d)
      []
  | _, _ => []

/-- Combined per-key test of the fallback loop: the loop body returns
`name_to_cont[k]` on an exact, either-direction leading-segment, or
either-direction substring match, whichever condition fires first (all
three return the same value for one key). -/
def nameMatchCond (key k : String) : Bool :=
  key == k || pyStartsWith key k || pyStartsWith k key || pyIn k key || pyIn key k

/-- `try_by_name`: exact dictionary hit first, then one pass over the map
returning the first key related to the lower-cased entity. -/
def try_by_name (name_to_cont : List (String × String)) (entity : Option String) :
    String :=
  match entity with
  | none => ""
  | some e =>
    let key := pyLower (pyStrip e)
    match dictGet? name_to_cont key with
    | some v => v
    | none =>
      match name_to_cont.find? (fun kv => nameMatchCond key kv.1) with
      | some kv => kv.2
      | none => ""

/-- The fallback as the specification words it: a whole-map exact pass,
then a whole-map leading-segment pass, then a whole-map substring pass;
any match of an earlier strategy beats any match of a later one. -/
def tryByNameSpec (name_to_cont : List (String × String)) (entity : Option String) :
    String :=
  match entity with
  | none => ""
  | some e =>
    let key := pyLower (pyStrip e)
    match name_to_cont.find? (fun kv => key == kv.1) with
    | some kv => kv.2
    | none =>
      match name_to_cont.find? (fun kv =>
          pyStartsWith key kv.1 || pyStartsWith kv.1 key) with
      | some kv => kv.2
      | none =>
        match name_to_cont.find? (fun kv => pyIn kv.1 key || pyIn key kv.1) with
        | some kv => kv.2
        | none => ""

/-- A `pandas` column assignment `df[k] = ...` seen at one row: when the
frame already has column `k` its cell is overwritten in place (the column
keeps its position), otherwise the column is appended as the last one. -/
def setCol (r : PdRow) (k : String) (v : Option String) : PdRow :=
  if r.any (fun kv => kv.1 == k) then
    r.map (fun kv => if kv.1 == k then (k, v) else kv)
  else r ++ [(k, v)]

/-- The enrichment pass of `main`: the `Region` column is assigned from
`lookup_continent` (overwriting any pre-existing `Region` column in place,
appending a trailing one otherwise); when some region is empty and the
frame has an `Entity` column, those rows' regions are recomputed via
`try_by_name`.  The two successive column assignments of the script are
modelled by one assignment of the per-row final value. -/
def enrich (iso3m namem : List (String × String)) (header : List String)
    (codeCol : String) (rows : List PdRow) : List PdRow :=
  let base := rows.map (fun r => (r, lookup_continent iso3m (getCell r codeCol)))
  let anyMissing := base.any (fun p => pyStrip p.2 == "")
  if anyMissing && header.contains "Entity" then
    base.map (fun p =>
      setCol p.1 "Region"
        (some (if pyStrip p.2 == "" then try_by_name namem (getCell p.1 "Entity")
          else p.2)))
  else
    base.map (fun p => setCol p.1 "Region" (some p.2))

/-! ### Specification-side predicates -/

/-- A row the Year-Filter keeps: its `Year` cell exists, parses as an
integer and is at least the threshold. -/
def keepsRow (t : Int) (idx : Nat) (r : List String) : Bool :=
  match r.get? idx with
  | none => false
  | some s =>
    match pyParseInt s with
    | none => false
    | some y => t ≤ y

/-- A row matching target year `y`. -/
def rowHasYear (y : Int) (r : DictRow) : Bool :=
  rowYearInt r == some y

/-- A row the splitter drops: its year parses but is not a target year. -/
def rowDropped (years : List Int) (r : DictRow) : Bool :=
  match rowYearInt r with
  | some v => !(years.contains v)
  | none => false

/-! ### Lemmas about the Year-Filter loop -/

theorem filterLoop_eq_filter (t : Int) (idx : Nat) (rows : List (List String))
    (hlen : ∀ r ∈ rows, idx < r.length) :
    filterLoop t idx rows = rows.filter (keepsRow t idx) := by
  induction rows with
  | nil => rfl
  | cons r rs ih =>
    have h1 : idx < r.length := hlen r (List.mem_cons_self _ _)
    have hget : r.get? idx = some (r.get ⟨idx, h1⟩) := List.get?_eq_get h1
    have ih2 := ih (fun x hx => hlen x (List.mem_cons_of_mem _ hx))
    rw [List.filter_cons]
    show (match r.get? idx with
      | none => []
      | some s =>
        match pyParseInt s with
        | none => filterLoop t idx rs
        | some y => if t ≤ y then r :: filterLoop t idx rs else filterLoop t idx rs) = _
    rw [hget]
    show (match pyParseInt (r.get ⟨idx, h1⟩) with
      | none => filterLoop t idx rs
      | some y => if t ≤ y then r :: filterLoop t idx rs else filterLoop t idx rs) = _
    have hkeep : keepsRow t idx r = (match pyParseInt (r.get ⟨idx, h1⟩) with
        | none => false
        | some y => decide (t ≤ y)) := by
      show (match r.get? idx with
        | none => false
        | some s =>
          match pyParseInt s with
          | none => false
          | some y => decide (t ≤ y)) = _
      rw [hget]
    rw [hkeep]
    cases hp : pyParseInt (r.get ⟨idx, h1⟩) with
    | none => simpa using ih2
    | some y =>
      by_cases hty : t ≤ y
      · simp [hty, ih2]
      · simp [hty, ih2]

/-! ### Lemmas about the Year-Filter as a file-system transformer -/

theorem runFilterScript_eq_none (fs : FS) (h : fs filterInPath = none) :
    runFilterScript fs = fs := by
  show (match fs filterInPath with
    | none => fs
    | some content =>
      fun p => if p = filterOutPath then some (runYearFilter 1990 content) else fs p) = fs
  rw [h]

theorem runFilterScript_eq_some (fs : FS) (content : CsvFile)
    (h : fs filterInPath = some content) :
    runFilterScript fs =
      fun p => if p = filterOutPath then some (runYearFilter 1990 content) else fs p := by
  show (match fs filterInPath with
    | none => fs
    | some content =>
      fun p => if p = filterOutPath then some (runYearFilter 1990 content) else fs p) = _
  rw [h]

theorem filterPaths_ne : filterInPath ≠ filterOutPath := by decide

/-- C3: for every input table with a `"Year"` column, the Year-Filter
output keeps the input schema and consists of exactly the input rows whose
`Year` parses as an integer at least the threshold, in input order;
unparseable rows never appear.  In particular, on Year values `"1989"`,
`"1990"`, `"2000"`, `"abc"` with threshold 1990, the output rows are the
`"1990"` row then the `"2000"` row. -/
theorem yearFilter_C3 (t : Int) (header : List String) (idx : Nat)
    (rows : List (List String))
    (hidx : header.indexOf? "Year" = some idx)
    (hlen : ∀ r ∈ rows, idx < r.length) :
    runYearFilter t (header :: rows) = header :: rows.filter (keepsRow t idx) ∧
    runYearFilter 1990 [["Year"], ["1989"], ["1990"], ["2000"], ["abc"]] =
      [["Year"], ["1990"], ["2000"]] := by
  constructor
  · show (match header.indexOf? "Year" with
      | none => [header]
      | some idx => header :: filterLoop t idx rows) = _
    rw [hidx]
    show header :: filterLoop t idx rows = _
    rw [filterLoop_eq_filter t idx rows hlen]
  · decide

/-- Witness for C3 at the specification's scenario. -/
theorem yearFilter_C3_witness :
    runYearFilter 1990 [["Year"], ["1989"], ["1990"], ["2000"], ["abc"]] =
      [["Year"], ["1990"], ["2000"]] :=
  (yearFilter_C3 1990 ["Year"] 0 [["1989"], ["1990"], ["2000"], ["abc"]]
    (by decide) (by decide)).2

/-- C8: re-running the Year-Filter on an unchanged input file overwrites
the output file with identical content — the script is a deterministic
function of the input file, and running it twice equals running it once. -/
theorem yearFilter_C8 (fs : FS) :
    runFilterScript (runFilterScript fs) = runFilterScript fs := by
  cases h : fs filterInPath with
  | none =>
    rw [runFilterScript_eq_none fs h, runFilterScript_eq_none fs h]
  | some content =>
    have h1 := runFilterScript_eq_some fs content h
    have hIn : runFilterScript fs filterInPath = some content := by
      rw [h1]
      show (if filterInPath = filterOutPath then some (runYearFilter 1990 content)
        else fs filterInPath) = some content
      rw [if_neg filterPaths_ne]
      exact h
    rw [runFilterScript_eq_some (runFilterScript fs) content hIn, h1]
    funext p
    by_cases hp : p = filterOutPath
    · simp [hp]
    · simp [hp, h1]

/-! ### Lemmas about the Year-Splitter loop -/

theorem splitRun_cons (years : List Int) (r : DictRow) (rs : List DictRow) :
    splitRun years (r :: rs) =
      match rowYearInt r with
      | none => ([], true)
      | some y =>
        if years.contains y
          then ((y, r) :: (splitRun years rs).1, (splitRun years rs).2)
          else splitRun years rs := rfl

theorem splitRun_cons_none (years : List Int) (r : DictRow) (rs : List DictRow)
    (h : rowYearInt r = none) :
    splitRun years (r :: rs) = ([], true) := by
  rw [splitRun_cons, h]

theorem splitRun_cons_some (years : List Int) (r : DictRow) (rs : List DictRow)
    (y : Int) (h : rowYearInt r = some y) :
    splitRun years (r :: rs) =
      if years.contains y
        then ((y, r) :: (splitRun years rs).1, (splitRun years rs).2)
        else splitRun years rs := by
  rw [splitRun_cons, h]

/-- C2 (counterexample): a row whose `Year` is not integer-parseable makes
the splitter's loop abort — nothing is written and the abort flag is set —
even though the same input without the bad row writes its `1990` row; the
bad row is not skipped and processing does not continue. -/
theorem yearSplitter_C2_cex :
    splitRun [1990, 2000, 2010, 2015] [[("Year", "abc")], [("Year", "1990")]]
      = ([], true) ∧
    splitRun [1990, 2000, 2010, 2015] [[("Year", "1990")]]
      = ([(1990, [("Year", "1990")])], false) := by
  constructor
  · decide
  · decide

/-- C2 (amended): a row whose `Year` value is not integer-parseable aborts
the Year-Splitter run (`int` raises an uncaught `ValueError`): rows before
the first bad row are written, and the bad row together with every later
row is left unprocessed. -/
theorem yearSplitter_C2_amended (years : List Int) (pre post : List DictRow)
    (bad : DictRow)
    (hpre : ∀ r ∈ pre, (rowYearInt r).isSome)
    (hbad : rowYearInt bad = none) :
    splitRun years (pre ++ bad :: post) = ((splitRun years pre).1, true) := by
  induction pre with
  | nil =>
    rw [List.nil_append, splitRun_cons_none years bad post hbad]
    rfl
  | cons r rs ih =>
    obtain ⟨y, hy⟩ := Option.isSome_iff_exists.mp (hpre r (List.mem_cons_self _ _))
    have ih2 := ih (fun x hx => hpre x (List.mem_cons_of_mem _ hx))
    rw [List.cons_append, splitRun_cons_some years r (rs ++ bad :: post) y hy, ih2,
      splitRun_cons_some years r rs y hy]
    cases hc : years.contains y
    · rfl
    · rfl

/-- Witness for C2 (amended): one good row, then a bad row. -/
theorem yearSplitter_C2_amended_witness :
    splitRun [1990, 2000, 2010, 2015]
        ([[("Year", "1990")]] ++ [("Year", "abc")] :: [[("Year", "2000")]])
      = ((splitRun [1990, 2000, 2010, 2015] [[("Year", "1990")]]).1, true) :=
  yearSplitter_C2_amended [1990, 2000, 2010, 2015] [[("Year", "1990")]]
    [[("Year", "2000")]] [("Year", "abc")] (by decide) (by decide)

/-- C10: a `NaN` code cell, or one that is only whitespace, makes the
per-row lookup return the empty string (total function, no exception), so
the row is merely unresolved. -/
theorem enricher_C10 (m : List (String × String)) (s : String) :
    lookup_continent m none = "" ∧
    (pyStrip s = "" → lookup_continent m (some s) = "") := by
  constructor
  · rfl
  · intro h
    show (let c := pyUpper (pyStrip s)
      if c == "" then ""
      else
        match dictGet? m c with
        | none => ""
        | some continent => if continent == "" then "" else contMapGet continent) = ""
    rw [h]
    rfl

/-- Witness for C10 at a whitespace-only code cell. -/
theorem enricher_C10_witness :
    lookup_continent [("USA", "North America")] none = "" ∧
    lookup_continent [("USA", "North America")] (some "   ") = "" :=
  ⟨(enricher_C10 [("USA", "North America")] "   ").1,
    (enricher_C10 [("USA", "North America")] "   ").2 (by decide)⟩

/-- C7: code lookup is case- and whitespace-insensitive — the looked-up key
is the trimmed upper-cased input, so any two code cells with the same
trimmed upper-casing resolve identically; and for a reference table with
pairs `("USA", "North America")` and `("FRA", "Europe")` (codes stored
upper-cased by the builder), the input code `"usa"` resolves to
`"North America"`. -/
theorem enricher_C7 (m : List (String × String)) (c1 c2 : String)
    (h : pyUpper (pyStrip c1) = pyUpper (pyStrip c2)) :
    lookup_continent m (some c1) = lookup_continent m (some c2) ∧
    (build_iso3_to_continent_map ["Three_Letter_Country_Code", "Continent_Name"]
        [["USA", "North America"], ["FRA", "Europe"]] =
      some [("USA", "North America"), ("FRA", "Europe")] ∧
     lookup_continent [("USA", "North America"), ("FRA", "Europe")] (some "usa") =
      "North America") := by
  constructor
  · show (let c := pyUpper (pyStrip c1)
      if c == "" then ""
      else
        match dictGet? m c with
        | none => ""
        | some continent => if continent == "" then "" else contMapGet continent) = _
    rw [h]
    rfl
  · constructor
    · decide
    · decide

/-- Witness for C7: `" usa "` and `"USA"` trim and upper-case alike, so
they look up to the same region. -/
theorem enricher_C7_witness :
    lookup_continent [("USA", "North America"), ("FRA", "Europe")] (some " usa ") =
      lookup_continent [("USA", "North America"), ("FRA", "Europe")] (some "USA") :=
  (enricher_C7 [("USA", "North America"), ("FRA", "Europe")] " usa " "USA"
    (by decide)).1


theorem splitRun_mem (years : List Int) (rows : List DictRow) (p : Int × DictRow)
    (hp : p ∈ (splitRun years rows).1) :
    ∃ r ∈ rows, rowYearInt r = some p.1 ∧ p.2 = r := by
  induction rows with
  | nil => exact absurd hp (List.not_mem_nil p)
  | cons r rs ih =>
    cases hy : rowYearInt r with
    | none =>
      rw [splitRun_cons_none years r rs hy] at hp
      exact absurd hp (List.not_mem_nil p)
    | some y =>
      rw [splitRun_cons_some years r rs y hy] at hp
      by_cases hc : years.contains y = true
      · rw [if_pos hc] at hp
        have hp2 : p ∈ (y, r) :: (splitRun years rs).1 := hp
        rcases List.mem_cons.mp hp2 with h | h
        · subst h
          exact ⟨r, List.mem_cons_self _ _, hy, rfl⟩
        · obtain ⟨r2, hr2, h3, h4⟩ := ih h
          exact ⟨r2, List.mem_cons_of_mem _ hr2, h3, h4⟩
      · rw [if_neg hc] at hp
        obtain ⟨r2, hr2, h3, h4⟩ := ih hp
        exact ⟨r2, List.mem_cons_of_mem _ hr2, h3, h4⟩

/-- C9: for every configured target year, the header is written to that
year's file before any data row is read, so a target year matched by no
input row still yields a file holding exactly the input schema and zero
data rows — also when the row loop aborts midway. -/
theorem yearSplitter_C9 (years : List Int) (fieldnames : List String)
    (rows : List DictRow) (y : Int)
    (hy : y ∈ years)
    (hnone : ∀ r ∈ rows, rowYearInt r ≠ some y) :
    splitFileFor years fieldnames rows y = (fieldnames, []) := by
  unfold splitFileFor
  have hfil : (splitRun years rows).1.filter (fun p => p.1 == y) = [] := by
    rw [List.filter_eq_nil_iff]
    intro p hp
    obtain ⟨r, hr, h1, h2⟩ := splitRun_mem years rows p hp
    intro hpy
    exact hnone r hr (by rw [h1, show p.1 = y from by simpa using hpy])
  rw [hfil]
  rfl

/-- Witness for C9: an input whose single row is for 1990, asked about the
target year 2000. -/
theorem yearSplitter_C9_witness :
    splitFileFor [1990, 2000, 2010, 2015] ["Entity", "Year"]
        [[("Entity", "a"), ("Year", "1990")]] 2000 =
      (["Entity", "Year"], []) :=
  yearSplitter_C9 [1990, 2000, 2010, 2015] ["Entity", "Year"]
    [[("Entity", "a"), ("Year", "1990")]] 2000 (by decide) (by decide)

theorem splitRun_noAbort (years : List Int) (rows : List DictRow)
    (hall : ∀ r ∈ rows, (rowYearInt r).isSome) :
    (splitRun years rows).2 = false := by
  induction rows with
  | nil => rfl
  | cons r rs ih =>
    obtain ⟨y, hy⟩ := Option.isSome_iff_exists.mp (hall r (List.mem_cons_self _ _))
    have ih2 := ih (fun x hx => hall x (List.mem_cons_of_mem _ hx))
    rw [splitRun_cons_some years r rs y hy]
    by_cases hc : years.contains y = true
    · rw [if_pos hc]
      exact ih2
    · rw [if_neg hc]
      exact ih2

theorem filterPairs_cons (y w : Int) (r2 : DictRow) (L : List (Int × DictRow)) :
    List.filter (fun p => p.1 == y) ((w, r2) :: L)
      = if w == y then (w, r2) :: List.filter (fun p => p.1 == y) L
        else List.filter (fun p => p.1 == y) L := by
  rw [List.filter_cons]

theorem splitRun_filter (years : List Int) (rows : List DictRow) (y : Int)
    (hall : ∀ r ∈ rows, (rowYearInt r).isSome)
    (hy : y ∈ years) :
    ((splitRun years rows).1.filter (fun p => p.1 == y)).map (fun p => p.2) =
      rows.filter (rowHasYear y) := by
  induction rows with
  | nil => rfl
  | cons r rs ih =>
    obtain ⟨v, hv⟩ := Option.isSome_iff_exists.mp (hall r (List.mem_cons_self _ _))
    have ih2 := ih (fun x hx => hall x (List.mem_cons_of_mem _ hx))
    have hrhs : List.filter (rowHasYear y) (r :: rs)
        = if v == y then r :: List.filter (rowHasYear y) rs
          else List.filter (rowHasYear y) rs := by
      rw [List.filter_cons]
      have hhas : rowHasYear y r = (v == y) := by
        unfold rowHasYear
        rw [hv]
        rfl
      rw [hhas]
    rw [hrhs, splitRun_cons_some years r rs v hv]
    by_cases hc : years.contains v = true
    · rw [if_pos hc]
      show (List.filter (fun p => p.1 == y) ((v, r) :: (splitRun years rs).1)).map
        (fun p => p.2) = _
      rw [filterPairs_cons]
      cases hb : (v == y) with
      | true =>
        rw [if_pos rfl, if_pos rfl]
        show r :: (List.filter (fun p => p.1 == y) (splitRun years rs).1).map
          (fun p => p.2) = _
        rw [ih2]
      | false =>
        rw [if_neg (by simp), if_neg (by simp)]
        exact ih2
    · rw [if_neg hc]
      have hvy : (v == y) = false := by
        have hne : v ≠ y := fun he => hc (by rw [he]; exact List.elem_iff.mpr hy)
        simpa using hne
      rw [hvy, if_neg (by simp)]
      exact ih2

theorem sumIndicatorNotMem (v : Int) (years : List Int) (h : v ∉ years) :
    (years.map (fun y => if v = y then 1 else 0)).sum = 0 := by
  induction years with
  | nil => rfl
  | cons a ys ih =>
    have h1 : v ≠ a := fun hva => h (by rw [hva]; exact List.mem_cons_self a ys)
    have h2 : v ∉ ys := fun hm => h (List.mem_cons_of_mem a hm)
    rw [List.map_cons, List.sum_cons, if_neg h1, ih h2]

theorem sumIndicatorMem (v : Int) (years : List Int) (hnd : years.Nodup)
    (h : v ∈ years) :
    (years.map (fun y => if v = y then 1 else 0)).sum = 1 := by
  induction years with
  | nil => exact absurd h (List.not_mem_nil v)
  | cons a ys ih =>
    rw [List.map_cons, List.sum_cons]
    rcases List.mem_cons.mp h with h1 | h1
    · rw [if_pos h1, sumIndicatorNotMem v ys (by rw [h1]; exact (List.nodup_cons.mp hnd).1)]
    · have hva : v ≠ a := fun he => (List.nodup_cons.mp hnd).1 (he ▸ h1)
      rw [if_neg hva, ih (List.nodup_cons.mp hnd).2 h1]

theorem sumMapAdd (ys : List Int) (f g : Int → Nat) :
    (ys.map (fun y => f y + g y)).sum = (ys.map f).sum + (ys.map g).sum := by
  induction ys with
  | nil => rfl
  | cons a l ih =>
    rw [List.map_cons, List.sum_cons, List.map_cons, List.sum_cons, List.map_cons,
      List.sum_cons, ih]
    omega

theorem splitCount (years : List Int) (rows : List DictRow)
    (hnd : years.Nodup) (hall : ∀ r ∈ rows, (rowYearInt r).isSome) :
    (years.map (fun y => (rows.filter (rowHasYear y)).length)).sum
      + (rows.filter (rowDropped years)).length = rows.length := by
  induction rows with
  | nil => simp
  | cons r rs ih =>
    obtain ⟨v, hv⟩ := Option.isSome_iff_exists.mp (hall r (List.mem_cons_self _ _))
    have ih2 := ih (fun x hx => hall x (List.mem_cons_of_mem _ hx))
    have hfil : ∀ z : Int, (List.filter (rowHasYear z) (r :: rs)).length
        = (if v = z then 1 else 0) + (List.filter (rowHasYear z) rs).length := by
      intro z
      rw [List.filter_cons]
      have hhas : rowHasYear z r = (v == z) := by
        unfold rowHasYear
        rw [hv]
        rfl
      rw [hhas]
      by_cases hvz : v = z
      · rw [if_pos hvz, if_pos (by simpa using hvz)]
        simp only [List.length_cons]
        omega
      · rw [if_neg hvz, if_neg (by simpa using hvz)]
        omega
    have hdrop : (List.filter (rowDropped years) (r :: rs)).length
        = (if years.contains v then 0 else 1)
          + (List.filter (rowDropped years) rs).length := by
      rw [List.filter_cons]
      have hd : rowDropped years r = !(years.contains v) := by
        unfold rowDropped
        rw [hv]
      rw [hd]
      cases hc : years.contains v
      · rw [if_pos (by simp [hc]), if_neg (by simp)]
        simp only [List.length_cons]
        omega
      · rw [if_neg (by simp [hc]), if_pos rfl]
        omega
    rw [List.map_congr_left (fun z _ => hfil z), sumMapAdd, hdrop, List.length_cons]
    by_cases hm : v ∈ years
    · rw [sumIndicatorMem v years hnd hm, if_pos (List.elem_iff.mpr hm)]
      omega
    · rw [sumIndicatorNotMem v years hm,
        if_neg (fun hc => hm (List.elem_iff.mp hc))]
      omega

/-- C4: on an input whose `Year` values all parse, the splitter does not
abort, the file for each configured target year holds exactly the input
rows with that year in original relative order, and the output row counts
plus the dropped-row count add up to the input row count. -/
theorem yearSplitter_C4 (years : List Int) (fieldnames : List String)
    (rows : List DictRow)
    (hnd : years.Nodup)
    (hall : ∀ r ∈ rows, (rowYearInt r).isSome) :
    (splitRun years rows).2 = false ∧
    (∀ y ∈ years, (splitFileFor years fieldnames rows y).2 =
      rows.filter (rowHasYear y)) ∧
    (years.map (fun y => ((splitFileFor years fieldnames rows y).2).length)).sum
      + (rows.filter (rowDropped years)).length = rows.length := by
  refine ⟨splitRun_noAbort years rows hall,
    fun y hy => splitRun_filter years rows y hall hy, ?_⟩
  have hmap : years.map (fun y => ((splitFileFor years fieldnames rows y).2).length)
      = years.map (fun y => (rows.filter (rowHasYear y)).length) :=
    List.map_congr_left (fun y hy => by rw [show (splitFileFor years fieldnames rows y).2
      = rows.filter (rowHasYear y) from splitRun_filter years rows y hall hy])
  rw [hmap]
  exact splitCount years rows hnd hall

/-- Witness for C4 at the specification's splitter scenario: years 1990 and
2000, input rows for 1990, 1995, 2000. -/
theorem yearSplitter_C4_witness :
    (splitRun [1990, 2000]
      [[("Year", "1990")], [("Year", "1995")], [("Year", "2000")]]).2 = false ∧
    (∀ y ∈ [1990, 2000],
      (splitFileFor [1990, 2000] ["Year"]
        [[("Year", "1990")], [("Year", "1995")], [("Year", "2000")]] y).2 =
      [[("Year", "1990")], [("Year", "1995")], [("Year", "2000")]].filter
        (rowHasYear y)) ∧
    ([1990, 2000].map (fun y => ((splitFileFor [1990, 2000] ["Year"]
        [[("Year", "1990")], [("Year", "1995")], [("Year", "2000")]] y).2).length)).sum
      + ([[("Year", "1990")], [("Year", "1995")], [("Year", "2000")]].filter
          (rowDropped [1990, 2000])).length
      = [[("Year", "1990")], [("Year", "1995")], [("Year", "2000")]].length :=
  yearSplitter_C4 [1990, 2000] ["Year"]
    [[("Year", "1990")], [("Year", "1995")], [("Year", "2000")]]
    (by decide) (by decide)

/-! ### Lemmas about the Region-Enricher -/

theorem dictGet?_mem (d : List (String × String)) (k v : String)
    (h : dictGet? d k = some v) : ∃ kv ∈ d, kv.2 = v := by
  unfold dictGet? at h
  cases hf : d.find? (fun kv => kv.1 == k) with
  | none =>
    rw [hf] at h
    exact absurd h (by simp)
  | some kv =>
    rw [hf] at h
    refine ⟨kv, List.mem_of_find?_eq_some hf, ?_⟩
    simpa using h

theorem lookup_continent_cases (m : List (String × String)) (c : Option String) :
    lookup_continent m c = "" ∨
      ∃ kv ∈ m, lookup_continent m c = contMapGet kv.2 := by
  cases c with
  | none => exact Or.inl rfl
  | some s =>
    have hbody : lookup_continent m (some s)
        = (if pyUpper (pyStrip s) == "" then ""
          else
            match dictGet? m (pyUpper (pyStrip s)) with
            | none => ""
            | some continent =>
              if continent == "" then "" else contMapGet continent) := rfl
    rw [hbody]
    by_cases h0 : (pyUpper (pyStrip s) == "") = true
    · rw [if_pos h0]
      exact Or.inl rfl
    · rw [if_neg h0]
      cases hg : dictGet? m (pyUpper (pyStrip s)) with
      | none => exact Or.inl rfl
      | some continent =>
        show (if continent == "" then "" else contMapGet continent) = "" ∨
          ∃ kv ∈ m,
            (if continent == "" then "" else contMapGet continent) = contMapGet kv.2
        by_cases hce : (continent == "") = true
        · rw [if_pos hce]
          exact Or.inl rfl
        · rw [if_neg hce]
          obtain ⟨kv, hkv, hv⟩ := dictGet?_mem m _ continent hg
          exact Or.inr ⟨kv, hkv, by rw [hv]⟩

theorem try_by_name_cases (m : List (String × String)) (e : Option String) :
    try_by_name m e = "" ∨ ∃ kv ∈ m, try_by_name m e = kv.2 := by
  cases e with
  | none => exact Or.inl rfl
  | some s =>
    have hbody : try_by_name m (some s)
        = (match dictGet? m (pyLower (pyStrip s)) with
          | some v => v
          | none =>
            match m.find? (fun kv => nameMatchCond (pyLower (pyStrip s)) kv.1) with
            | some kv => kv.2
            | none => "") := rfl
    rw [hbody]
    cases hg : dictGet? m (pyLower (pyStrip s)) with
    | some v =>
      obtain ⟨kv, hkv, hv⟩ := dictGet?_mem m _ v hg
      exact Or.inr ⟨kv, hkv, hv.symm⟩
    | none =>
      cases hf : m.find? (fun kv => nameMatchCond (pyLower (pyStrip s)) kv.1) with
      | none => exact Or.inl rfl
      | some kv => exact Or.inr ⟨kv, List.mem_of_find?_eq_some hf, rfl⟩

theorem contMapGet_canonical (v : String) (h : v ∈ canonicalContinents) :
    contMapGet v = v := by
  simp only [canonicalContinents, List.mem_cons, List.not_mem_nil, or_false] at h
  rcases h with h | h | h | h | h | h | h <;> subst h <;> decide

theorem enrich_eq (iso3m namem : List (String × String)) (header : List String)
    (codeCol : String) (rows : List PdRow) :
    enrich iso3m namem header codeCol rows =
      if ((rows.map (fun r => (r, lookup_continent iso3m (getCell r codeCol)))).any
            (fun p => pyStrip p.2 == "") && header.contains "Entity") then
        (rows.map (fun r => (r, lookup_continent iso3m (getCell r codeCol)))).map
          (fun p => setCol p.1 "Region"
            (some (if pyStrip p.2 == "" then try_by_name namem (getCell p.1 "Entity")
              else p.2)))
      else
        (rows.map (fun r => (r, lookup_continent iso3m (getCell r codeCol)))).map
          (fun p => setCol p.1 "Region" (some p.2)) := rfl

theorem setCol_absent (r : PdRow) (k : String) (v : Option String)
    (h : r.any (fun kv => kv.1 == k) = false) :
    setCol r k v = r ++ [(k, v)] := by
  unfold setCol
  rw [h]
  rfl

theorem setCol_present (r : PdRow) (k : String) (v : Option String)
    (h : r.any (fun kv => kv.1 == k) = true) :
    setCol r k v = r.map (fun kv => if kv.1 == k then (k, v) else kv) := by
  unfold setCol
  rw [h]
  rfl

theorem find?_overwritten (k : String) (v : Option String) (r : PdRow)
    (h : r.any (fun kv => kv.1 == k) = true) :
    (r.map (fun kv => if kv.1 == k then (k, v) else kv)).find?
      (fun kv => kv.1 == k) = some (k, v) := by
  induction r with
  | nil => simp at h
  | cons c cs ih =>
    rw [List.map_cons, List.find?_cons]
    by_cases hc : (c.1 == k) = true
    · rw [if_pos hc]
      simp
    · rw [if_neg hc]
      have h2 : cs.any (fun kv => kv.1 == k) = true := by
        rw [List.any_cons] at h
        simpa [hc] using h
      simpa [hc] using ih h2

theorem find?_appended (k : String) (v : Option String) (r : PdRow)
    (h : r.any (fun kv => kv.1 == k) = false) :
    (r ++ [(k, v)]).find? (fun kv => kv.1 == k) = some (k, v) := by
  rw [List.find?_append]
  have h1 : r.find? (fun kv => kv.1 == k) = none :=
    List.find?_eq_none.mpr (fun x hx hpx => by
      have h2 : r.any (fun kv => kv.1 == k) = true :=
        List.any_eq_true.mpr ⟨x, hx, hpx⟩
      rw [h2] at h
      exact Bool.noConfusion h)
  rw [h1, Option.none_or, List.find?_cons]
  simp

/-- The cell a column assignment leaves under its own column name. -/
theorem getCell_setCol (r : PdRow) (k : String) (v : Option String) :
    getCell (setCol r k v) k = v := by
  cases h : r.any (fun kv => kv.1 == k) with
  | true =>
    rw [setCol_present r k v h]
    unfold getCell
    rw [find?_overwritten k v r h]
    rfl
  | false =>
    rw [setCol_absent r k v h]
    unfold getCell
    rw [find?_appended k v r h]
    rfl

/-- C5 (counterexample): with the name map `ya ↦ Asia, xyabc ↦ Europe` and
entity `"xyab"`, the code returns `Asia` — the earlier key `ya` matches
only as a proper substring while the later key `xyabc` matches as a
leading segment — whereas the claimed strategy ordering (exact, then
leading-segment, then substring, each over the whole map) would return
`Europe`. -/
theorem enricher_C5_cex :
    try_by_name [("ya", "Asia"), ("xyabc", "Europe")] (some "xyab") = "Asia" ∧
    tryByNameSpec [("ya", "Asia"), ("xyabc", "Europe")] (some "xyab") = "Europe" ∧
    ("Asia" : String) ≠ "Europe" :=
  ⟨by decide, by decide, by decide⟩

/-- C5 (amended): the fallback first tries an exact dictionary hit of the
lower-cased entity over the whole map — so an exact match beats everything
— and otherwise makes a single pass over the map in insertion order,
returning the continent of the first entry matching by exact,
leading-segment (either direction) or substring (either direction)
comparison; map order, not strategy rank, breaks ties between
leading-segment and substring matches. -/
theorem enricher_C5_amended (namem : List (String × String)) (e : String)
    (pre post : List (String × String)) (kv : String × String) :
    (∀ v, dictGet? namem (pyLower (pyStrip e)) = some v →
      try_by_name namem (some e) = v) ∧
    (dictGet? namem (pyLower (pyStrip e)) = none →
      namem = pre ++ kv :: post →
      (∀ p ∈ pre, nameMatchCond (pyLower (pyStrip e)) p.1 = false) →
      nameMatchCond (pyLower (pyStrip e)) kv.1 = true →
      try_by_name namem (some e) = kv.2) := by
  constructor
  · intro v hv
    show (match dictGet? namem (pyLower (pyStrip e)) with
      | some v => v
      | none =>
        match namem.find? (fun kv2 => nameMatchCond (pyLower (pyStrip e)) kv2.1) with
        | some kv2 => kv2.2
        | none => "") = v
    rw [hv]
  · intro hnone hsplit hpre hkv
    show (match dictGet? namem (pyLower (pyStrip e)) with
      | some v => v
      | none =>
        match namem.find? (fun kv2 => nameMatchCond (pyLower (pyStrip e)) kv2.1) with
        | some kv2 => kv2.2
        | none => "") = kv.2
    rw [hnone]
    have hfind : namem.find? (fun kv2 => nameMatchCond (pyLower (pyStrip e)) kv2.1)
        = some kv := by
      rw [hsplit, List.find?_append]
      have h1 : pre.find? (fun kv2 => nameMatchCond (pyLower (pyStrip e)) kv2.1)
          = none :=
        List.find?_eq_none.mpr (fun x hx => by simp [hpre x hx])
      rw [h1, Option.none_or, List.find?_cons]
      simp only [hkv]
    rw [hfind]

/-- Witness for C5 (amended): the counterexample map, where the first
matching entry in map order is `("ya", "Asia")`. -/
theorem enricher_C5_amended_witness :
    try_by_name [("ya", "Asia"), ("xyabc", "Europe")] (some "xyab") = "Asia" :=
  (enricher_C5_amended [("ya", "Asia"), ("xyabc", "Europe")] "xyab" []
    [("xyabc", "Europe")] ("ya", "Asia")).2 (by decide) (by decide)
    (by decide) (by decide)

/-- C1 (counterexample): an accepted reference table whose continent column
holds `"Middle East"` (detected through the keyword header heuristics)
leads to a `Region` value `"Middle East"`, which is neither one of the
seven canonical continent names nor empty. -/
theorem enricher_C1_cex :
    build_iso3_to_continent_map ["Three_Letter_Country_Code", "Continent_Name"]
        [["FOO", "Middle East"]] = some [("FOO", "Middle East")] ∧
    enrich [("FOO", "Middle East")] [] ["Code"] "Code" [[("Code", some "FOO")]] =
      [[("Code", some "FOO"), ("Region", some "Middle East")]] ∧
    ¬("Middle East" ∈ canonicalContinents ∨ ("Middle East" : String) = "") :=
  ⟨by decide, by decide, by decide⟩

/-- C1 (amended): every `Region` value the enricher writes is either empty
or a continent string taken from the constructed lookup maps (the code map
through the final `cont_map` normalisation, the name map verbatim); in
particular, when every continent value stored in both maps is one of the
seven canonical names, every written `Region` value is canonical or
empty. -/
theorem enricher_C1_amended (iso3m namem : List (String × String))
    (header : List String) (codeCol : String) (rows : List PdRow)
    (h1 : ∀ kv ∈ iso3m, kv.2 ∈ canonicalContinents)
    (h2 : ∀ kv ∈ namem, kv.2 ∈ canonicalContinents) :
    ∀ r2 ∈ enrich iso3m namem header codeCol rows,
      ∃ v, getCell r2 "Region" = some v ∧
        (v ∈ canonicalContinents ∨ v = "") := by
  intro r2 hr2
  rw [enrich_eq] at hr2
  have hlook : ∀ r0 : PdRow,
      lookup_continent iso3m (getCell r0 codeCol) ∈ canonicalContinents ∨
        lookup_continent iso3m (getCell r0 codeCol) = "" := by
    intro r0
    rcases lookup_continent_cases iso3m (getCell r0 codeCol) with h | ⟨kv, hkv, hv⟩
    · exact Or.inr h
    · rw [hv, contMapGet_canonical kv.2 (h1 kv hkv)]
      exact Or.inl (h1 kv hkv)
  have hname : ∀ r0 : PdRow,
      try_by_name namem (getCell r0 "Entity") ∈ canonicalContinents ∨
        try_by_name namem (getCell r0 "Entity") = "" := by
    intro r0
    rcases try_by_name_cases namem (getCell r0 "Entity") with h | ⟨kv, hkv, hv⟩
    · exact Or.inr h
    · rw [hv]
      exact Or.inl (h2 kv hkv)
  split at hr2
  · rw [List.mem_map] at hr2
    obtain ⟨p, hp, hpe⟩ := hr2
    rw [List.mem_map] at hp
    obtain ⟨r0, hmem, rfl⟩ := hp
    refine ⟨if pyStrip (lookup_continent iso3m (getCell r0 codeCol)) == "" then
        try_by_name namem (getCell r0 "Entity")
      else lookup_continent iso3m (getCell r0 codeCol), ?_, ?_⟩
    · rw [← hpe]
      exact getCell_setCol r0 "Region" _
    · split
      · exact hname r0
      · exact hlook r0
  · rw [List.mem_map] at hr2
    obtain ⟨p, hp, hpe⟩ := hr2
    rw [List.mem_map] at hp
    obtain ⟨r0, hmem, rfl⟩ := hp
    refine ⟨lookup_continent iso3m (getCell r0 codeCol), ?_, hlook r0⟩
    rw [← hpe]
    exact getCell_setCol r0 "Region" _

/-- Witness for C1 (amended): a one-row input resolved against a canonical
map gets Region `"North America"`. -/
theorem enricher_C1_amended_witness :
    ∃ v, getCell [("Code", some "USA"), ("Region", some "North America")] "Region"
        = some v ∧ (v ∈ canonicalContinents ∨ v = "") := by
  have h := enricher_C1_amended [("USA", "North America")] [] ["Code"] "Code"
    [[("Code", some "USA")]] (by decide) (by decide)
  exact h [("Code", some "USA"), ("Region", some "North America")] (by decide)

/-- C6 (counterexample): on an input table that already carries a `Region`
column, the program overwrites that column's values in place and appends
no column: with the map `FRA ↦ Europe`, the input row
`[Region ↦ Garbage, Code ↦ FRA]` becomes `[Region ↦ Europe, Code ↦ FRA]` —
the original `Region` column's value changed and the row's column count is
unchanged, refuting "every original column's values unchanged and a single
trailing Region column added". -/
theorem enricher_C6_cex :
    enrich [("FRA", "Europe")] [] ["Region", "Code"] "Code"
        [[("Region", some "Garbage"), ("Code", some "FRA")]]
      = [[("Region", some "Europe"), ("Code", some "FRA")]] ∧
    getCell [("Region", some "Garbage"), ("Code", some "FRA")] "Region"
      ≠ getCell [("Region", some "Europe"), ("Code", some "FRA")] "Region" ∧
    ([("Region", some "Europe"), ("Code", some "FRA")] : PdRow).length
      = ([("Region", some "Garbage"), ("Code", some "FRA")] : PdRow).length :=
  ⟨by decide, by decide, by decide⟩

/-- C6 (amended): the enriched output has exactly one row per input row,
never dropping any; a row without a pre-existing `Region` column comes out
as the input row with a single trailing `Region` cell appended, while a
row that already has a `Region` column keeps every other column's cells
unchanged and has its `Region` cells overwritten in place; a row resolved
neither by code lookup nor by the name fallback gets the empty `Region`
value and is retained. -/
theorem enricher_C6_amended (iso3m namem : List (String × String))
    (header : List String) (codeCol : String) (rows : List PdRow) :
    (enrich iso3m namem header codeCol rows).length = rows.length ∧
    ∀ (i : Nat) (r0 : PdRow), rows.get? i = some r0 →
      ∃ v,
        (r0.any (fun kv => kv.1 == "Region") = false →
          (enrich iso3m namem header codeCol rows).get? i
            = some (r0 ++ [("Region", some v)])) ∧
        (r0.any (fun kv => kv.1 == "Region") = true →
          (enrich iso3m namem header codeCol rows).get? i
            = some (r0.map (fun kv =>
                if kv.1 == "Region" then ("Region", some v) else kv))) ∧
        (lookup_continent iso3m (getCell r0 codeCol) = "" →
          try_by_name namem (getCell r0 "Entity") = "" → v = "") := by
  constructor
  · rw [enrich_eq]
    split
    · simp
    · simp
  · intro i r0 hr0
    rw [enrich_eq]
    split
    · refine ⟨if pyStrip (lookup_continent iso3m (getCell r0 codeCol)) == "" then
          try_by_name namem (getCell r0 "Entity")
        else lookup_continent iso3m (getCell r0 codeCol), ?_, ?_, ?_⟩
      · intro hany
        rw [List.get?_map, List.get?_map, hr0, Option.map_some', Option.map_some']
        show some (setCol r0 "Region"
          (some (if pyStrip (lookup_continent iso3m (getCell r0 codeCol)) == "" then
            try_by_name namem (getCell r0 "Entity")
          else lookup_continent iso3m (getCell r0 codeCol)))) = _
        rw [setCol_absent r0 "Region"
          (some (if pyStrip (lookup_continent iso3m (getCell r0 codeCol)) == "" then
            try_by_name namem (getCell r0 "Entity")
          else lookup_continent iso3m (getCell r0 codeCol))) hany]
      · intro hany
        rw [List.get?_map, List.get?_map, hr0, Option.map_some', Option.map_some']
        show some (setCol r0 "Region"
          (some (if pyStrip (lookup_continent iso3m (getCell r0 codeCol)) == "" then
            try_by_name namem (getCell r0 "Entity")
          else lookup_continent iso3m (getCell r0 codeCol)))) = _
        rw [setCol_present r0 "Region"
          (some (if pyStrip (lookup_continent iso3m (getCell r0 codeCol)) == "" then
            try_by_name namem (getCell r0 "Entity")
          else lookup_continent iso3m (getCell r0 codeCol))) hany]
      · intro hl he
        rw [hl]
        rw [if_pos (by decide)]
        exact he
    · refine ⟨lookup_continent iso3m (getCell r0 codeCol), ?_, ?_, fun hl he => hl⟩
      · intro hany
        rw [List.get?_map, List.get?_map, hr0, Option.map_some', Option.map_some']
        show some (setCol r0 "Region"
          (some (lookup_continent iso3m (getCell r0 codeCol)))) = _
        rw [setCol_absent r0 "Region"
          (some (lookup_continent iso3m (getCell r0 codeCol))) hany]
      · intro hany
        rw [List.get?_map, List.get?_map, hr0, Option.map_some', Option.map_some']
        show some (setCol r0 "Region"
          (some (lookup_continent iso3m (getCell r0 codeCol)))) = _
        rw [setCol_present r0 "Region"
          (some (lookup_continent iso3m (getCell r0 codeCol))) hany]

/-- Witness for C6 (amended) at the specification's unresolved-row
scenario: code `"XXX"` and entity `"Republic of Foo"`, both absent from
empty maps, in a row with no pre-existing `Region` column. -/
theorem enricher_C6_amended_witness :
    ∃ v,
      (([("Code", some "XXX"), ("Entity", some "Republic of Foo")] : PdRow).any
          (fun kv => kv.1 == "Region") = false →
        (enrich [] [] ["Code", "Entity"] "Code"
            [[("Code", some "XXX"), ("Entity", some "Republic of Foo")]]).get? 0
          = some ([("Code", some "XXX"), ("Entity", some "Republic of Foo")]
              ++ [("Region", some v)])) ∧
      (([("Code", some "XXX"), ("Entity", some "Republic of Foo")] : PdRow).any
          (fun kv => kv.1 == "Region") = true →
        (enrich [] [] ["Code", "Entity"] "Code"
            [[("Code", some "XXX"), ("Entity", some "Republic of Foo")]]).get? 0
          = some (([("Code", some "XXX"),
              ("Entity", some "Republic of Foo")] : PdRow).map
              (fun kv => if kv.1 == "Region" then ("Region", some v) else kv))) ∧
      (lookup_continent []
          (getCell [("Code", some "XXX"), ("Entity", some "Republic of Foo")] "Code")
          = "" →
        try_by_name []
          (getCell [("Code", some "XXX"), ("Entity", some "Republic of Foo")] "Entity")
          = "" → v = "") :=
  (enricher_C6_amended [] [] ["Code", "Entity"] "Code"
    [[("Code", some "XXX"), ("Entity", some "Republic of Foo")]]).2 0
    [("Code", some "XXX"), ("Entity", some "Republic of Foo")] (by decide)
